import Mathlib

set_option maxRecDepth 8000

/-!
Shallow embedding of the si8900 UART driver (src/si8900.c, src/si8900.h).

Bytes are natural numbers (callers pass values in 0..255); `uint16_t`
arithmetic is taken modulo 65536 and `uint8_t` arithmetic modulo 256 at
exactly the points where the C code stores into a variable of that type.
C undefined behaviour is modelled by `Option`: `none` marks an execution
that reaches undefined behaviour (the unguarded `vals/entries` division
with `entries == 0`, or returning the uninitialised `temp` struct when
the loop body never ran).

The hardware registers consumed by `si8900_auto_baud` are abstracted to
the sequence of bytes that successive reads of `UART_RX_BUFF` deliver;
writes of `CAL_BYTE` to `UART_TX_BUFF` do not influence the control flow
or the return value, so they are not represented.
-/

/-- `CAL_BYTE` from si8900.h: calibration byte 0xAA. -/
def CAL_BYTE : ℕ := 0xAA

/-- `CONFIRM` from si8900.h: received-correctly byte 0x55. -/
def CONFIRM : ℕ := 0x55

/-- `FAILED` from si8900.h: failure code 0xFF. -/
def FAILED : ℕ := 0xFF

/-- `HAND_SHAKED` from si8900.h: indicator used to forgo the auto-baud process. -/
def HAND_SHAKED : ℕ := 0x88

/-- `PGA_0` from si8900.h: gain of .5. -/
def PGA_0 : ℕ := 0x00

/-- `PGA_1` from si8900.h: gain of 1. -/
def PGA_1 : ℕ := 0x01

/-- `MODE_0` from si8900.h: single read return. -/
def MODE_0 : ℕ := 0x00

/-- `MODE_1` from si8900.h: stream read. -/
def MODE_1 : ℕ := 0x02

/-- `REF_0` from si8900.h: Ref = VDD. -/
def REF_0 : ℕ := 0x00

/-- `REF_1` from si8900.h: Ref = external ref pin. -/
def REF_1 : ℕ := 0x08

/-- `INCH_0` from si8900.h: input channel 0. -/
def INCH_0 : ℕ := 0xC0

/-- `INCH_1` from si8900.h: input channel 1. -/
def INCH_1 : ℕ := 0xD0

/-- `INCH_2` from si8900.h: input channel 2. -/
def INCH_2 : ℕ := 0xE0

/-- `GP_SINGLE_READ_0` from si8900.h. -/
def GP_SINGLE_READ_0 : ℕ := INCH_0 ||| REF_0 ||| MODE_1 ||| PGA_0

/-- `GP_SINGLE_READ_1` from si8900.h. -/
def GP_SINGLE_READ_1 : ℕ := INCH_1 ||| REF_0 ||| MODE_1 ||| PGA_0

/-- `GP_SINGLE_READ_2` from si8900.h. -/
def GP_SINGLE_READ_2 : ℕ := INCH_2 ||| REF_0 ||| MODE_1 ||| PGA_0

/-- `PACKET_JOIN(b1,b2) = (uint16_t)(((uint16_t)b1) << 7 | b2)` from si8900.h.
The cast to `uint16_t` is the final `% 65536`. -/
def PACKET_JOIN (b1 b2 : ℕ) : ℕ := ((b1 <<< 7) ||| b2) % 65536

/-- `GET_INCH(packet) = (uint8_t)((packet & 0x30) >> 4)` from si8900.h.
The result is at most 3, so the `uint8_t` cast never truncates. -/
def GET_INCH (packet : ℕ) : ℕ := (packet &&& 0x30) >>> 4

/-- `GET_READING(packet) = (uint16_t)((packet & 0x0FFE) >> 1)` from si8900.h.
The result is at most 0x7FF, so the `uint16_t` cast never truncates. -/
def GET_READING (packet : ℕ) : ℕ := (packet &&& 0x0FFE) >>> 1

/-- The `si8900_reading` struct from si8900.h. -/
structure si8900_reading where
  cmd_byte : ℕ
  inch : ℕ
  reading : ℕ
deriving DecidableEq

/-- `si8900_get_reading` from si8900.c: decode a 3-byte response
`[b0, b1, b2]` against the expected echo byte `ref`. -/
def si8900_get_reading (b0 b1 b2 ref : ℕ) : si8900_reading :=
  if b0 = ref then
    { cmd_byte := b0, inch := GET_INCH b1, reading := GET_READING (PACKET_JOIN b1 b2) }
  else
    { cmd_byte := b0, inch := FAILED, reading := FAILED }

/-- Decode one 3-byte buffer (as a triple) against `ref`. -/
def decodeOf (ref : ℕ) (b : ℕ × ℕ × ℕ) : si8900_reading :=
  si8900_get_reading b.1 b.2.1 b.2.2 ref

/-- The test `temp.reading != FAILED` applied by the oversampling loop. -/
def decode_ok (ref : ℕ) (b : ℕ × ℕ × ℕ) : Bool :=
  (decodeOf ref b).reading != FAILED

/-- The `for` loop of `si8900_get_reading_oversampled`.  The accumulator is
`(temp, vals, entries)`: `temp` is the struct assigned on the most recent
iteration (`none` before the first iteration, i.e. the uninitialised C
local), `vals` the `uint16_t` running sum, `entries` the `uint8_t` success
count.  The buffer contents seen by attempt `i` are `bufs[i]` (the caller
refreshes the shared buffer between attempts; `sample_count = bufs.length`). -/
def oversampleLoop (ref : ℕ) : List (ℕ × ℕ × ℕ) → Option si8900_reading × ℕ × ℕ → Option si8900_reading × ℕ × ℕ
  | [], acc => acc
  | b :: rest, (_, vals, entries) =>
    if decode_ok ref b then
      oversampleLoop ref rest
        (some (decodeOf ref b), (vals + (decodeOf ref b).reading) % 65536, (entries + 1) % 256)
    else
      oversampleLoop ref rest (some (decodeOf ref b), vals, entries)

/-- `si8900_get_reading_oversampled` from si8900.c.  After the loop the C
code executes `temp.reading = vals/entries` unconditionally: `entries = 0`
is a division by zero, and a zero-length run additionally returns the
uninitialised `temp`; both undefined executions are modelled as `none`. -/
def si8900_get_reading_oversampled (bufs : List (ℕ × ℕ × ℕ)) (ref : ℕ) : Option si8900_reading :=
  match oversampleLoop ref bufs (none, 0, 0) with
  | (some temp, vals, entries) =>
    if entries = 0 then none
    else some { temp with reading := vals / entries }
  | (none, _, _) => none

/-- Number of attempts the oversampling loop counts as successful. -/
def succCount (ref : ℕ) (bufs : List (ℕ × ℕ × ℕ)) : ℕ :=
  (bufs.filter (decode_ok ref)).length

/-- Exact (unwrapped) sum of the reading values of the successful attempts. -/
def succSum (ref : ℕ) (bufs : List (ℕ × ℕ × ℕ)) : ℕ :=
  ((bufs.filter (decode_ok ref)).map (fun b => (decodeOf ref b).reading)).sum

/-- The `temp` value left behind by the loop: the decode of the final
attempt, or the initial value `t` when there is no attempt. -/
def lastDecode (ref : ℕ) (bufs : List (ℕ × ℕ × ℕ)) (t : Option si8900_reading) : Option si8900_reading :=
  bufs.foldl (fun _ b => some (decodeOf ref b)) t

/-- The two `uint8_t` confirmation flags of `si8900_auto_baud`. -/
structure ABState where
  code_receive : ℕ
  code_confirm : ℕ
deriving DecidableEq

/-- Initial flag state: `Code_receive = 0`, `Code_confirm = 0`. -/
def abInit : ABState := { code_receive := 0, code_confirm := 0 }

/-- One iteration of the `si8900_auto_baud` loop body acting on the flags,
given the byte read from `UART_RX_BUFF`: on `CONFIRM`, `Code_confirm` is set
only if `Code_receive` was already 1, then `Code_receive` is set; on any
other byte both flags are cleared. -/
def autoBaudStep (s : ABState) (b : ℕ) : ABState :=
  if b = CONFIRM then
    { code_receive := 1,
      code_confirm := if s.code_receive = 1 then 1 else s.code_confirm }
  else
    { code_receive := 0, code_confirm := 0 }

/-- Run of the `si8900_auto_baud` outer loop against the finite list of
bytes the UART delivers.  `true` means the loop guard
`(Code_receive & Code_confirm) == 0` failed, i.e. the function returned 0;
`false` means the byte list was exhausted with the loop still spinning
(the C function would block forever waiting for a further byte). -/
def autoBaudRun (s : ABState) : List ℕ → Bool
  | [] => if s.code_receive &&& s.code_confirm = 0 then false else true
  | b :: rest =>
    if s.code_receive &&& s.code_confirm = 0 then autoBaudRun (autoBaudStep s b) rest
    else true

/-- Specification-side predicate: the byte list contains two consecutive
`CONFIRM` bytes. -/
def hasDouble : List ℕ → Bool
  | b1 :: b2 :: rest => (b1 == CONFIRM && b2 == CONFIRM) || hasDouble (b2 :: rest)
  | _ => false

/-- First `n` bytes of an infinite incoming byte stream. -/
def streamTake (f : ℕ → ℕ) (n : ℕ) : List ℕ := (List.range n).map f

/-- Loop of `bit_reverse` from si8900.c, with an explicit fuel argument for
structural recursion (`num` halves every iteration, so `fuel = num` is
always enough and the fuel-exhausted branch is never the deciding one).
Each assignment to the `uint16_t` local `reverse` is taken modulo 65536;
the `uint8_t` decrement `size--` wraps modulo 256. -/
def bit_reverse_go : ℕ → ℕ → ℕ → ℕ → ℕ
  | 0, _, reverse, size => (reverse <<< size) % 65536
  | fuel + 1, num, reverse, size =>
    if num = 0 then (reverse <<< size) % 65536
    else bit_reverse_go fuel (num / 2) (((reverse <<< 1) % 65536) ||| (num % 2)) ((size + 255) % 256)

/-- `bit_reverse` from si8900.c.  The C initialiser is
`size = sizeof(num) * sizeof(uint8_t) - 1`, which evaluates to
`2 * 1 - 1 = 1` (not `sizeof(num) * CHAR_BIT - 1 = 15`); the loop starts
from `num >>= 1`. -/
def bit_reverse (num : ℕ) : ℕ :=
  bit_reverse_go num (num >>> 1) num (2 * 1 - 1)

/-! ## Claim theorems -/

/-- C1: the round-trip claim fails on the code.  For channel 1 and reading 0
the wire-format response is byte0 = `GP_SINGLE_READ_1` (the echoed command
byte), byte1 = `1 0 01 0000` = 0x90, byte2 = 0x00; decoding recovers
`inch = 1` but `reading = 1024`, not 0: the `GET_READING` mask 0x0FFE keeps
packet bit 11, which `PACKET_JOIN` fills with the low INCH bit of byte1. -/
theorem c1_roundtrip_fails_on_channel_one :
    si8900_get_reading GP_SINGLE_READ_1 0x90 0x00 GP_SINGLE_READ_1 =
      { cmd_byte := GP_SINGLE_READ_1, inch := 1, reading := 1024 } := by
  decide

/-- C4: `bit_reverse` is not a 16-bit reversal and not an involution.
`bit_reverse 0x0001 = 0x0002` (the claim and the function's own doc comment
demand a high-bit result), and applying it twice gives 5, not 1: the
initialiser `size = sizeof(num) * sizeof(uint8_t) - 1` evaluates to 1
instead of the intended `sizeof(num) * CHAR_BIT - 1 = 15`. -/
theorem c4_bit_reverse_not_involution :
    bit_reverse 0x0001 = 0x0002 ∧
    bit_reverse (bit_reverse 0x0001) = 5 ∧
    bit_reverse 0x0001 ≠ 0x8000 ∧
    bit_reverse (bit_reverse 0x0001) ≠ 0x0001 := by
  decide

/-- C6 counterexample: a successfully echo-validated decode (byte0 equals
`ref_byte`) of the valid wire packet for channel 0, reading 255 returns
`reading = 0xFF = FAILED`: 255 lies inside the valid 0..1023 range, so the
sentinel is not distinguishable on the reading field. -/
theorem c6_counterexample_reading_can_be_sentinel :
    si8900_get_reading 0xC1 0x83 0x7E 0xC1 =
      { cmd_byte := 0xC1, inch := 0, reading := FAILED } := by
  decide

/-- C6 (amended): the sentinel is distinguishable on the `inch` field only:
every echo-validated decode has `inch ≤ 3`, hence `inch ≠ FAILED`. -/
theorem c6_inch_sentinel_distinguishable (b0 b1 b2 ref : ℕ) (h : b0 = ref) :
    (si8900_get_reading b0 b1 b2 ref).inch ≤ 3 ∧
    (si8900_get_reading b0 b1 b2 ref).inch ≠ FAILED := by
  have h48 : b1 &&& 0x30 ≤ 0x30 := Nat.and_le_right
  have hle : GET_INCH b1 ≤ 3 := by
    have hdiv : (b1 &&& 0x30) / 2 ^ 4 ≤ 0x30 / 2 ^ 4 := Nat.div_le_div_right h48
    simpa [GET_INCH, Nat.shiftRight_eq_div_pow] using hdiv
  constructor <;> simp [si8900_get_reading, h, FAILED] <;> omega

/-- Witness for `c6_inch_sentinel_distinguishable` at a concrete
echo-validated packet. -/
theorem c6_inch_witness :
    (si8900_get_reading 0xC1 0x83 0x7E 0xC1).inch ≤ 3 ∧
    (si8900_get_reading 0xC1 0x83 0x7E 0xC1).inch ≠ FAILED :=
  c6_inch_sentinel_distinguishable 0xC1 0x83 0x7E 0xC1 rfl

/-- C7 counterexample: the stream-mode constant is `MODE_1 = 0x02`, not 0x04,
and bit 1 of an assembled command byte is not always zero
(`GP_SINGLE_READ_0 = 0xC2` has bit 1 set). -/
theorem c7_counterexample_mode_bit :
    MODE_1 ≠ 0x04 ∧ GP_SINGLE_READ_0 &&& 0x02 ≠ 0 := by
  decide

/-- C7 (amended): MODE occupies bit 1 (stream constant `MODE_1 = 0x02`) and
bit 2 is the unused, always-zero bit; VREF occupies bit 3 (`REF_1 = 0x08`)
and PGA bit 0 (`PGA_1 = 0x01`), for every command byte assembled from the
four field constants. -/
theorem c7_field_positions (p m v i : ℕ)
    (hp : p = PGA_0 ∨ p = PGA_1) (hm : m = MODE_0 ∨ m = MODE_1)
    (hv : v = REF_0 ∨ v = REF_1) (hi : i = INCH_0 ∨ i = INCH_1 ∨ i = INCH_2) :
    MODE_1 = 0x02 ∧ REF_1 = 0x08 ∧ PGA_1 = 0x01 ∧
    (p ||| m ||| v ||| i) &&& 0x04 = 0 ∧
    (p ||| m ||| v ||| i) &&& 0x02 = m ∧
    (p ||| m ||| v ||| i) &&& 0x08 = v ∧
    (p ||| m ||| v ||| i) &&& 0x01 = p := by
  rcases hp with rfl | rfl <;> rcases hm with rfl | rfl <;> rcases hv with rfl | rfl <;>
    rcases hi with rfl | rfl | rfl <;> decide

/-- Witness for `c7_field_positions` at the field selection of
`GP_SINGLE_READ_1`. -/
theorem c7_field_witness :
    MODE_1 = 0x02 ∧ REF_1 = 0x08 ∧ PGA_1 = 0x01 ∧
    (PGA_0 ||| MODE_1 ||| REF_0 ||| INCH_1) &&& 0x04 = 0 ∧
    (PGA_0 ||| MODE_1 ||| REF_0 ||| INCH_1) &&& 0x02 = MODE_1 ∧
    (PGA_0 ||| MODE_1 ||| REF_0 ||| INCH_1) &&& 0x08 = REF_0 ∧
    (PGA_0 ||| MODE_1 ||| REF_0 ||| INCH_1) &&& 0x01 = PGA_0 :=
  c7_field_positions PGA_0 MODE_1 REF_0 INCH_1 (Or.inl rfl) (Or.inr rfl)
    (Or.inl rfl) (Or.inr (Or.inl rfl))

/-- C8: whenever byte0 of the buffer differs from `ref_byte`, the decode
returns the `FAILED` sentinel in both the `inch` and the `reading` field. -/
theorem c8_echo_mismatch_failed (b0 b1 b2 ref : ℕ) (h0 : b0 < 256) (h1 : b1 < 256)
    (h2 : b2 < 256) (hr : ref < 256) (hne : b0 ≠ ref) :
    (si8900_get_reading b0 b1 b2 ref).inch = FAILED ∧
    (si8900_get_reading b0 b1 b2 ref).reading = FAILED := by
  simp [si8900_get_reading, hne]

/-- Witness for `c8_echo_mismatch_failed` at a concrete mismatching byte. -/
theorem c8_echo_mismatch_witness :
    (si8900_get_reading 0x00 0x90 0x14 0xD2).inch = FAILED ∧
    (si8900_get_reading 0x00 0x90 0x14 0xD2).reading = FAILED :=
  c8_echo_mismatch_failed 0x00 0x90 0x14 0xD2 (by decide) (by decide) (by decide)
    (by decide) (by decide)

/-- `decode_ok` is the boolean form of `reading ≠ FAILED`. -/
theorem decode_ok_iff (ref : ℕ) (b : ℕ × ℕ × ℕ) :
    decode_ok ref b = true ↔ (decodeOf ref b).reading ≠ FAILED := by
  simp [decode_ok]

/-- Closed form of the oversampling loop: the final `temp` is the decode of
the last attempt, `vals` the wrapped sum of the successful readings, and
`entries` the wrapped success count. -/
theorem oversampleLoop_spec (ref : ℕ) (bufs : List (ℕ × ℕ × ℕ)) :
    ∀ (t : Option si8900_reading) (v e : ℕ), v < 65536 → e < 256 →
      oversampleLoop ref bufs (t, v, e) =
        (lastDecode ref bufs t, (v + succSum ref bufs) % 65536,
          (e + succCount ref bufs) % 256) := by
  induction bufs with
  | nil =>
    intro t v e hv he
    simp [oversampleLoop, lastDecode, succSum, succCount,
      Nat.mod_eq_of_lt hv, Nat.mod_eq_of_lt he]
  | cons b rest ih =>
    intro t v e hv he
    by_cases hok : decode_ok ref b
    · have hstep : oversampleLoop ref (b :: rest) (t, v, e) =
          oversampleLoop ref rest
            (some (decodeOf ref b), (v + (decodeOf ref b).reading) % 65536, (e + 1) % 256) := by
        simp [oversampleLoop, hok]
      rw [hstep, ih _ _ _ (Nat.mod_lt _ (by norm_num)) (Nat.mod_lt _ (by norm_num))]
      have hfil : (b :: rest).filter (decode_ok ref) = b :: rest.filter (decode_ok ref) :=
        List.filter_cons_of_pos hok
      refine Prod.ext ?_ (Prod.ext ?_ ?_)
      · simp [lastDecode]
      · simp only [succSum, hfil, List.map_cons, List.sum_cons, Nat.mod_add_mod]
        omega
      · simp only [succCount, hfil, List.length_cons, Nat.mod_add_mod]
        omega
    · have hstep : oversampleLoop ref (b :: rest) (t, v, e) =
          oversampleLoop ref rest (some (decodeOf ref b), v, e) := by
        simp [oversampleLoop, hok]
      rw [hstep, ih _ _ _ hv he]
      have hfil : (b :: rest).filter (decode_ok ref) = rest.filter (decode_ok ref) :=
        List.filter_cons_of_neg (by simpa using hok)
      refine Prod.ext ?_ (Prod.ext ?_ ?_)
      · simp [lastDecode]
      · simp [succSum, hfil]
      · simp [succCount, hfil]

/-- Starting from an initialised `temp`, the loop always leaves `temp`
initialised. -/
theorem lastDecode_some (ref : ℕ) (bufs : List (ℕ × ℕ × ℕ)) :
    ∀ t : si8900_reading, ∃ y, lastDecode ref bufs (some t) = some y := by
  induction bufs with
  | nil => intro t; exact ⟨t, rfl⟩
  | cons b rest ih =>
    intro t
    simpa [lastDecode, List.foldl_cons] using ih (decodeOf ref b)

/-- A non-empty run leaves `temp` initialised. -/
theorem lastDecode_of_ne_nil (ref : ℕ) (bufs : List (ℕ × ℕ × ℕ)) (h : bufs ≠ []) :
    ∃ y, lastDecode ref bufs none = some y := by
  cases bufs with
  | nil => exact absurd rfl h
  | cons b rest =>
    simpa [lastDecode, List.foldl_cons] using lastDecode_some ref rest (decodeOf ref b)

/-- C3: when no attempt succeeds, `si8900_get_reading_oversampled` runs
`vals/entries` with `entries = 0` — a division by zero, modelled as `none`;
the `FAILED/FAILED` struct the claim (and the C doc comment) promises is
never produced. -/
theorem c3_zero_success_divide_by_zero (bufs : List (ℕ × ℕ × ℕ)) (ref : ℕ)
    (h : ∀ b ∈ bufs, decode_ok ref b = false) :
    si8900_get_reading_oversampled bufs ref = none := by
  have hcount : succCount ref bufs = 0 := by
    have : bufs.filter (decode_ok ref) = [] :=
      List.filter_eq_nil_iff.mpr (fun b hb => by simp [h b hb])
    simp [succCount, this]
  unfold si8900_get_reading_oversampled
  rw [oversampleLoop_spec ref bufs none 0 0 (by norm_num) (by norm_num), hcount]
  cases hld : lastDecode ref bufs none <;> simp

/-- Witness for `c3_zero_success_divide_by_zero`: a single attempt whose
echo byte 0x00 mismatches `ref_byte` 0xC1. -/
theorem c3_zero_success_witness :
    si8900_get_reading_oversampled [(0x00, 0x00, 0x00)] 0xC1 = none :=
  c3_zero_success_divide_by_zero [(0x00, 0x00, 0x00)] 0xC1 (by decide)

/-- C5 counterexample: two all-echo-validated runs where the returned value
is not the truncated mean of the decoded readings.  (a) One sample whose
valid decoded reading is 255: the loop conflates it with `FAILED`, excludes
it, and then divides by zero (`none`), instead of returning the mean 255.
(b) 65 samples of reading 1023: the `uint16_t` accumulator wraps
(65·1023 = 66495 ≡ 959 mod 65536) and the result is 959/65 = 14, not 1023. -/
theorem c5_counterexample_mean :
    (¬ ∃ r, si8900_get_reading_oversampled [(0xC1, 0x83, 0x7E)] 0xC1 = some r ∧
        r.reading = 255) ∧
    si8900_get_reading_oversampled (List.replicate 65 (0xC1, 0x8F, 0x7E)) 0xC1 =
      some { cmd_byte := 0xC1, inch := 0, reading := 14 } := by
  constructor
  · rintro ⟨r, hr, -⟩
    have hnone : si8900_get_reading_oversampled [(0xC1, 0x83, 0x7E)] 0xC1 = none := by
      decide
    rw [hnone] at hr
    cases hr
  · decide

/-- C5 (amended): for a non-empty run of at most 255 attempts in which every
attempt is echo-validated, no decoded reading equals the 0xFF sentinel (which
the loop conflates with failure), and the exact sum of the decoded readings
fits the 16-bit accumulator, the returned reading is the integer-truncated
arithmetic mean of all decoded readings. -/
theorem c5_all_success_mean (bufs : List (ℕ × ℕ × ℕ)) (ref : ℕ)
    (hne : bufs ≠ [])
    (hlen : bufs.length ≤ 255)
    (hall : ∀ b ∈ bufs, b.1 = ref ∧ (decodeOf ref b).reading ≠ FAILED)
    (hsum : (bufs.map (fun b => (decodeOf ref b).reading)).sum < 65536) :
    ∃ r, si8900_get_reading_oversampled bufs ref = some r ∧
      r.reading = (bufs.map (fun b => (decodeOf ref b).reading)).sum / bufs.length := by
  have hfil : bufs.filter (decode_ok ref) = bufs :=
    List.filter_eq_self.mpr (fun b hb => by simp [decode_ok, (hall b hb).2])
  have hcount : succCount ref bufs = bufs.length := by simp [succCount, hfil]
  have hsumeq : succSum ref bufs = (bufs.map (fun b => (decodeOf ref b).reading)).sum := by
    simp [succSum, hfil]
  obtain ⟨y, hy⟩ := lastDecode_of_ne_nil ref bufs hne
  have hlpos : 0 < bufs.length := List.length_pos.mpr hne
  unfold si8900_get_reading_oversampled
  rw [oversampleLoop_spec ref bufs none 0 0 (by norm_num) (by norm_num), hy, hcount, hsumeq]
  simp only [Nat.zero_add]
  rw [Nat.mod_eq_of_lt (lt_of_le_of_lt hlen (by norm_num)),
    Nat.mod_eq_of_lt hsum]
  simp only [if_neg hlpos.ne']
  exact ⟨_, rfl, rfl⟩

/-- Witness for `c5_all_success_mean`: readings 10 and 11 over two samples
average to 10. -/
theorem c5_all_success_witness :
    ∃ r, si8900_get_reading_oversampled [(0xC1, 0x80, 0x14), (0xC1, 0x80, 0x16)] 0xC1 =
        some r ∧
      r.reading = ([(0xC1, 0x80, 0x14), (0xC1, 0x80, 0x16)].map
          (fun b => (decodeOf 0xC1 b).reading)).sum /
        ([(0xC1, 0x80, 0x14), (0xC1, 0x80, 0x16)] : List (ℕ × ℕ × ℕ)).length :=
  c5_all_success_mean [(0xC1, 0x80, 0x14), (0xC1, 0x80, 0x16)] 0xC1 (by decide)
    (by decide) (by decide) (by decide)

/-- C10: the `inch` field of the oversampled result is the one decoded on
the final attempt.  If the last attempt fails echo validation while at least
one earlier attempt produced a counted sample, the result carries
`inch = FAILED` from the last attempt, while `reading` is the (wrapped) sum
of the counted samples divided by their number — the true truncated mean
whenever the sum fits the 16-bit accumulator. -/
theorem c10_inch_from_last_attempt (init : List (ℕ × ℕ × ℕ)) (lst : ℕ × ℕ × ℕ) (ref : ℕ)
    (hlast : lst.1 ≠ ref)
    (hsucc : ∃ b ∈ init, decode_ok ref b = true)
    (hlen : init.length ≤ 254) :
    ∃ r, si8900_get_reading_oversampled (init ++ [lst]) ref = some r ∧
      r.inch = FAILED ∧
      r.reading = succSum ref init % 65536 / succCount ref init ∧
      (succSum ref init < 65536 → r.reading = succSum ref init / succCount ref init) := by
  have hdec : decodeOf ref lst = { cmd_byte := lst.1, inch := FAILED, reading := FAILED } := by
    simp [decodeOf, si8900_get_reading, hlast]
  have hok : decode_ok ref lst = false := by simp [decode_ok, hdec]
  have hfl : List.filter (decode_ok ref) [lst] = [] := by
    simp [List.filter_cons, hok]
  have hcount_app : succCount ref (init ++ [lst]) = succCount ref init := by
    simp [succCount, List.filter_append, hfl]
  have hsum_app : succSum ref (init ++ [lst]) = succSum ref init := by
    simp [succSum, List.filter_append, hfl]
  have hld : lastDecode ref (init ++ [lst]) none = some (decodeOf ref lst) := by
    simp [lastDecode, List.foldl_append]
  have hcpos : 0 < succCount ref init := by
    obtain ⟨b, hb, hbok⟩ := hsucc
    have hmem : b ∈ init.filter (decode_ok ref) := List.mem_filter.mpr ⟨hb, hbok⟩
    exact List.length_pos.mpr (fun hnil => by simp [hnil] at hmem)
  have hcle : succCount ref init ≤ init.length :=
    List.length_filter_le _ _
  unfold si8900_get_reading_oversampled
  rw [oversampleLoop_spec ref (init ++ [lst]) none 0 0 (by norm_num) (by norm_num),
    hld, hcount_app, hsum_app]
  simp only [Nat.zero_add]
  rw [Nat.mod_eq_of_lt (a := succCount ref init) (by omega)]
  simp only [if_neg hcpos.ne']
  refine ⟨_, rfl, ?_, rfl, ?_⟩
  · simp [hdec]
  · intro hs
    rw [Nat.mod_eq_of_lt hs]

/-- Witness for `c10_inch_from_last_attempt`: one successful sample of
reading 1023, then a final attempt whose echo byte 0x00 mismatches. -/
theorem c10_inch_from_last_witness :
    ∃ r, si8900_get_reading_oversampled
          ([(0xC1, 0x8F, 0x7E)] ++ [(0x00, 0x00, 0x00)]) 0xC1 = some r ∧
      r.inch = FAILED ∧
      r.reading = succSum 0xC1 [(0xC1, 0x8F, 0x7E)] % 65536 /
        succCount 0xC1 [(0xC1, 0x8F, 0x7E)] ∧
      (succSum 0xC1 [(0xC1, 0x8F, 0x7E)] < 65536 →
        r.reading = succSum 0xC1 [(0xC1, 0x8F, 0x7E)] / succCount 0xC1 [(0xC1, 0x8F, 0x7E)]) :=
  c10_inch_from_last_attempt [(0xC1, 0x8F, 0x7E)] (0x00, 0x00, 0x00) 0xC1 (by decide)
    ⟨(0xC1, 0x8F, 0x7E), by decide, by decide⟩ (by decide)

/-- Once both flags are set the loop guard fails immediately, whatever bytes
remain. -/
theorem autoBaudRun_done (s : ABState) (h : s.code_receive &&& s.code_confirm ≠ 0) :
    ∀ bs : List ℕ, autoBaudRun s bs = true := by
  intro bs
  cases bs <;> simp [autoBaudRun, h]

/-- A non-`CONFIRM` head byte never contributes to a consecutive pair. -/
theorem hasDouble_cons_ne (b : ℕ) (bs : List ℕ) (h : b ≠ CONFIRM) :
    hasDouble (b :: bs) = hasDouble bs := by
  have hb : (b == CONFIRM) = false := beq_eq_false_iff_ne.mpr h
  cases bs with
  | nil => rfl
  | cons b2 rest => simp [hasDouble, hb]

/-- Joint characterisation of the run from the two reachable non-terminal
flag states: from `(0,0)` the run succeeds exactly on lists with two
consecutive `CONFIRM` bytes; from `(1,0)` exactly as if a `CONFIRM` had just
been consumed. -/
theorem autoBaudRun_pair : ∀ bs : List ℕ,
    autoBaudRun abInit bs = hasDouble bs ∧
    autoBaudRun { code_receive := 1, code_confirm := 0 } bs = hasDouble (CONFIRM :: bs) := by
  intro bs
  induction bs with
  | nil => exact ⟨rfl, rfl⟩
  | cons b rest ih =>
    constructor
    · by_cases hb : b = CONFIRM
      · subst hb
        have hstep : autoBaudStep { code_receive := 0, code_confirm := 0 } CONFIRM =
            { code_receive := 1, code_confirm := 0 } := by decide
        have hrun : autoBaudRun abInit (CONFIRM :: rest) =
            autoBaudRun { code_receive := 1, code_confirm := 0 } rest := by
          simp [autoBaudRun, abInit, hstep]
        rw [hrun, ih.2]
      · have hstep : autoBaudStep { code_receive := 0, code_confirm := 0 } b =
            { code_receive := 0, code_confirm := 0 } := by
          simp [autoBaudStep, hb]
        have hrun : autoBaudRun abInit (b :: rest) = autoBaudRun abInit rest := by
          simp [autoBaudRun, abInit, hstep]
        rw [hrun, ih.1, hasDouble_cons_ne b rest hb]
    · by_cases hb : b = CONFIRM
      · subst hb
        have hstep : autoBaudStep { code_receive := 1, code_confirm := 0 } CONFIRM =
            { code_receive := 1, code_confirm := 1 } := by decide
        have hrun : autoBaudRun { code_receive := 1, code_confirm := 0 } (CONFIRM :: rest) =
            autoBaudRun { code_receive := 1, code_confirm := 1 } rest := by
          simp [autoBaudRun, hstep]
        rw [hrun, autoBaudRun_done _ (by decide) rest]
        simp [hasDouble]
      · have hb' : (b == CONFIRM) = false := beq_eq_false_iff_ne.mpr hb
        have hstep : autoBaudStep { code_receive := 1, code_confirm := 0 } b =
            { code_receive := 0, code_confirm := 0 } := by
          simp [autoBaudStep, hb]
        have hrun : autoBaudRun { code_receive := 1, code_confirm := 0 } (b :: rest) =
            autoBaudRun abInit rest := by
          simp [autoBaudRun, abInit, hstep]
        rw [hrun, ih.1]
        simp [hasDouble, hb', hasDouble_cons_ne b rest hb]

/-- C2: the handshake run from the reset flags succeeds exactly on byte lists
containing two consecutive `CONFIRM` (0x55) bytes; any non-`CONFIRM` byte
resets both flags (`Code_receive` and `Code_confirm`) to zero; and the
confirm / non-confirm / confirm sequence does not report success. -/
theorem c2_two_consecutive_confirms :
    (∀ bs : List ℕ, autoBaudRun abInit bs = hasDouble bs) ∧
    (∀ (s : ABState) (b : ℕ), b ≠ CONFIRM → autoBaudStep s b = abInit) ∧
    (∀ b : ℕ, b ≠ CONFIRM → autoBaudRun abInit [CONFIRM, b, CONFIRM] = false) := by
  refine ⟨fun bs => (autoBaudRun_pair bs).1, ?_, ?_⟩
  · intro s b hb
    simp [autoBaudStep, hb, abInit]
  · intro b hb
    have hb' : (b == CONFIRM) = false := beq_eq_false_iff_ne.mpr hb
    rw [(autoBaudRun_pair [CONFIRM, b, CONFIRM]).1]
    simp [hasDouble, hb']

/-- Witness for `c2_two_consecutive_confirms`: calibration noise then two
confirms succeeds; `0xAA` clears the flags; confirm/`0xAA`/confirm fails. -/
theorem c2_two_consecutive_witness :
    autoBaudRun abInit [0xAA, 0x55, 0x55] = true ∧
    autoBaudStep { code_receive := 1, code_confirm := 0 } 0xAA = abInit ∧
    autoBaudRun abInit [0x55, 0xAA, 0x55] = false :=
  ⟨(c2_two_consecutive_confirms.1 [0xAA, 0x55, 0x55]).trans (by decide),
   c2_two_consecutive_confirms.2.1 { code_receive := 1, code_confirm := 0 } 0xAA (by decide),
   c2_two_consecutive_confirms.2.2 0xAA (by decide)⟩

/-- `hasDouble` holds exactly when some position `i` and its successor both
carry the `CONFIRM` byte. -/
theorem hasDouble_iff : ∀ bs : List ℕ,
    hasDouble bs = true ↔
      ∃ i, i + 1 < bs.length ∧ bs.getD i 0 = CONFIRM ∧ bs.getD (i + 1) 0 = CONFIRM := by
  intro bs
  induction bs with
  | nil => simp [hasDouble]
  | cons b1 tl ih =>
    cases tl with
    | nil =>
      simp only [hasDouble, List.length_cons, List.length_nil]
      constructor
      · intro h; cases h
      · rintro ⟨i, hi, -, -⟩; omega
    | cons b2 rest =>
      constructor
      · intro h
        have h' : (b1 = CONFIRM ∧ b2 = CONFIRM) ∨ hasDouble (b2 :: rest) = true := by
          simpa [hasDouble] using h
        rcases h' with ⟨h1, h2⟩ | htail
        · exact ⟨0, by simp, by simpa using h1, by simpa using h2⟩
        · obtain ⟨i, hi, h1, h2⟩ := ih.mp htail
          exact ⟨i + 1, by simpa using Nat.succ_lt_succ hi,
            by simpa [List.getD_cons_succ] using h1,
            by simpa [List.getD_cons_succ] using h2⟩
      · rintro ⟨i, hi, h1, h2⟩
        cases i with
        | zero =>
          simp only [List.getD_cons_zero, List.getD_cons_succ] at h1 h2
          simp [hasDouble, h1, h2]
        | succ j =>
          simp only [List.getD_cons_succ] at h1 h2
          have htail : hasDouble (b2 :: rest) = true :=
            ih.mpr ⟨j, by simp at hi ⊢; omega, h1, h2⟩
          simp [hasDouble, htail]

/-- Reading position `i` of a stream prefix of length `n > i` gives the
stream byte at `i`. -/
theorem streamTake_getD (f : ℕ → ℕ) (n i : ℕ) (h : i < n) :
    (streamTake f n).getD i 0 = f i := by
  rw [streamTake, List.getD_eq_getElem _ 0 (by simpa using h)]
  simp [List.getElem_map, List.getElem_range]

/-- C9: `si8900_auto_baud` has no timeout.  Against an infinite byte stream
`f` it returns (with value 0) if and only if some position of the stream
carries two consecutive `CONFIRM` bytes; on a stream with no such pair no
finite number of consumed bytes ever terminates the loop. -/
theorem c9_terminates_iff_two_consecutive (f : ℕ → ℕ) :
    (∃ n, autoBaudRun abInit (streamTake f n) = true) ↔
    (∃ i, f i = CONFIRM ∧ f (i + 1) = CONFIRM) := by
  constructor
  · rintro ⟨n, hn⟩
    rw [(autoBaudRun_pair (streamTake f n)).1] at hn
    obtain ⟨i, hi, h1, h2⟩ := (hasDouble_iff (streamTake f n)).mp hn
    have hlen : (streamTake f n).length = n := by simp [streamTake]
    rw [hlen] at hi
    rw [streamTake_getD f n i (by omega)] at h1
    rw [streamTake_getD f n (i + 1) (by omega)] at h2
    exact ⟨i, h1, h2⟩
  · rintro ⟨i, h1, h2⟩
    refine ⟨i + 2, ?_⟩
    rw [(autoBaudRun_pair (streamTake f (i + 2))).1]
    refine (hasDouble_iff (streamTake f (i + 2))).mpr ⟨i, ?_, ?_, ?_⟩
    · simp [streamTake]
    · rw [streamTake_getD f (i + 2) i (by omega)]; exact h1
    · rw [streamTake_getD f (i + 2) (i + 1) (by omega)]; exact h2

/-- Witness for `c9_terminates_iff_two_consecutive`: the all-`CONFIRM`
stream terminates the handshake. -/
theorem c9_terminates_witness :
    ∃ n, autoBaudRun abInit (streamTake (fun _ => 0x55) n) = true :=
  (c9_terminates_iff_two_consecutive (fun _ => 0x55)).mpr ⟨0, rfl, rfl⟩
